import Mathlib

/-!
Verification of the crawl engine and extraction routines of
`webscraper/scraper.py` (class `WebScraper`).

The development embeds the Python source shallowly:

* the regular-expression patterns of the six `extract_*` methods are encoded
  as terms of a small regex type `Re`, matched by a backtracking matcher with
  Python `re` semantics (leftmost match, greedy quantifiers, left-biased
  alternation, non-overlapping `findall` scan);
* `urllib.parse` helpers (`urlparse` scheme/netloc fields, `urljoin`) are
  modelled for the http(s) URL shapes the scraper handles (no dot-segment
  normalization, params or fragments — none of the verified claims depend on
  those);
* the mutable object state (`self.visited_urls`, `self.results`) becomes an
  explicit `ScraperState` threaded through the recursion; two ghost fields
  (`fetchLog`, `errorLog`) record the `requests.get` invocations and the
  logged per-page errors, which the specification's invariants talk about;
* Python's `list(set(xs))` (unspecified iteration order) is modelled by
  `List.dedup`; every verified statement about such lists is order
  independent.
-/

/-! ### Character classes used by the patterns -/

/-- The `\d` of Python `re` (ASCII input). -/
def digitChar (c : Char) : Bool := c.isDigit

/-- The `\s` of Python `re`: space, tab, newline, carriage return, vertical tab, form feed. -/
def spaceChar (c : Char) : Bool :=
  c = ' ' || c = '\t' || c = '\n' || c = '\r' || c = '\x0b' || c = '\x0c'

/-- The `\w` of Python `re` (ASCII input): letters, digits, underscore. -/
def wordChar (c : Char) : Bool := c.isAlpha || c.isDigit || c = '_'

/-! ### A small regex language with Python `re` matching semantics -/

/-- Regular expressions as used by the `extract_*` patterns of `scraper.py`.
`cls` is a character class, `bound` is the word boundary `\b`,
`rep a n` is `a{n}`, `repRange a m n` is `a{m,n}`, `repAtLeast a n` is `a{n,}`. -/
inductive Re where
  | eps : Re
  | cls (p : Char → Bool) : Re
  | bound : Re
  | seq (a b : Re) : Re
  | alt (a b : Re) : Re
  | opt (a : Re) : Re
  | star (a : Re) : Re
  | rep (a : Re) (n : Nat) : Re
  | repRange (a : Re) (m n : Nat) : Re
  | repAtLeast (a : Re) (n : Nat) : Re

/-- Matcher state: characters before the current position (reversed) and the
remaining input. Keeping the consumed prefix lets `\b` inspect the previous
character and lets the scanner recover the matched substring. -/
abbrev MSt := List Char × List Char

/-- Exactly `n` repetitions of a matcher, in sequence. -/
def mrep (m : MSt → List MSt) : Nat → MSt → List MSt
  | 0, st => [st]
  | n + 1, st => (m st).flatMap (mrep m n)

/-- Up to `fuel` further repetitions of a matcher, greedily (longest first).
Only outcomes that consumed at least one character are iterated, which bounds
the recursion; every starred subpattern in `scraper.py` consumes input. -/
def mstar (m : MSt → List MSt) : Nat → MSt → List MSt
  | 0, st => [st]
  | fuel + 1, st =>
    (((m st).filter (fun st2 => st2.2.length < st.2.length)).flatMap (mstar m fuel)) ++ [st]

/-- All ways a regex can match a prefix of the remaining input, in Python
backtracking priority order: greedy quantifiers try longer matches first and
alternation is left biased, so the head of the list is the match Python's
engine returns. -/
def mruns : Re → MSt → List MSt
  | .eps, st => [st]
  | .cls p, (pre, rest) =>
    match rest with
    | [] => []
    | c :: t => if p c then [(c :: pre, t)] else []
  | .bound, (pre, rest) =>
    let pw := match pre with | [] => false | c :: _ => wordChar c
    let nw := match rest with | [] => false | c :: _ => wordChar c
    if pw ≠ nw then [(pre, rest)] else []
  | .seq a b, st => (mruns a st).flatMap (mruns b)
  | .alt a b, st => mruns a st ++ mruns b st
  | .opt a, st => mruns a st ++ [st]
  | .star a, st => mstar (mruns a) st.2.length st
  | .rep a n, st => mrep (mruns a) n st
  | .repRange a m n, st => (mrep (mruns a) m st).flatMap (fun st2 => mstar (mruns a) (n - m) st2)
  | .repAtLeast a n, st => (mrep (mruns a) n st).flatMap (fun st2 => mstar (mruns a) st2.2.length st2)

/-- The substring consumed between scanner state `pre` and matcher result `pre2`. -/
def matchedOf (pre pre2 : List Char) : String :=
  String.mk ((pre2.take (pre2.length - pre.length)).reverse)

/-- The scan loop of `re.findall`: try a match at each position from left to
right; on a (non-empty) match record it and resume right after it, otherwise
advance one character. `fuel` bounds the number of steps; each step either
advances or consumes, so `length + 1` steps reach the end of the input. -/
def scanFrom (r : Re) : Nat → List Char → List Char → List String
  | 0, _, _ => []
  | fuel + 1, pre, rest =>
    match (mruns r (pre, rest)).head? with
    | some (pre2, rest2) =>
      if pre.length < pre2.length then
        matchedOf pre pre2 :: scanFrom r fuel pre2 rest2
      else
        match rest with
        | [] => []
        | c :: t => scanFrom r fuel (c :: pre) t
    | none =>
      match rest with
      | [] => []
      | c :: t => scanFrom r fuel (c :: pre) t

/-- The `re.findall(pattern, text)` for the patterns of `scraper.py` (which
contain no capturing groups, so `findall` returns whole matches). -/
def refindall (r : Re) (text : String) : List String :=
  scanFrom r (text.length + 1) [] text.toList

/-! ### Pattern building helpers -/

/-- A single literal character. -/
def chr (c : Char) : Re := .cls (fun x => x = c)

/-- An unescaped `.` in a pattern: any character except newline. -/
def dotAny : Re := .cls (fun c => c ≠ '\n')

/-- A literal string, one `chr` per character. -/
def lit (s : String) : Re := s.toList.foldr (fun c r => .seq (chr c) r) .eps

/-- A literal string matched case-insensitively (for `re.IGNORECASE`). -/
def litCI (s : String) : Re :=
  s.toList.foldr (fun c r => .seq (.cls (fun x => x.toLower = c.toLower)) r) .eps

/-- The `a+` = `a` followed by `a*`. -/
def plus (a : Re) : Re := .seq a (.star a)

/-- Sequencing of a list of regexes. -/
def seqs (rs : List Re) : Re := rs.foldr .seq .eps

/-- Left-biased alternation of a non-empty list of regexes. -/
def alts : List Re → Re
  | [] => .eps
  | r :: rs => rs.foldl .alt r

/-! ### The extraction patterns of `scraper.py`, transcribed -/

/-- The `[A-Za-z0-9._%+-]` (local part of the email pattern). -/
def emailLocalChar (c : Char) : Bool :=
  c.isAlpha || c.isDigit || c = '.' || c = '_' || c = '%' || c = '+' || c = '-'

/-- The `[A-Za-z0-9.-]` (domain part of the email pattern). -/
def emailDomainChar (c : Char) : Bool :=
  c.isAlpha || c.isDigit || c = '.' || c = '-'

/-- The `[A-Z|a-z]` (top-level-domain part; the class literally contains `|`). -/
def emailTldChar (c : Char) : Bool := c.isAlpha || c = '|'

/-- The `\b[A-Za-z0-9._%+-]+@[A-Za-z0-9.-]+\.[A-Z|a-z]{2,}\b` (line 169). -/
def email_pattern : Re :=
  seqs [.bound, plus (.cls emailLocalChar), chr '@', plus (.cls emailDomainChar),
        chr '.', .repAtLeast (.cls emailTldChar) 2, .bound]

/-- The `[-.\s]` (separators in the phone patterns). -/
def phoneSep (c : Char) : Bool := c = '-' || c = '.' || spaceChar c

/-- The `\+?\d{1,3}[-.\s]?\(?\d{3}\)?[-.\s]?\d{3}[-.\s]?\d{4}` (line 176, international). -/
def phone_pattern1 : Re :=
  seqs [.opt (chr '+'), .repRange (.cls digitChar) 1 3, .opt (.cls phoneSep),
        .opt (chr '('), .rep (.cls digitChar) 3, .opt (chr ')'), .opt (.cls phoneSep),
        .rep (.cls digitChar) 3, .opt (.cls phoneSep), .rep (.cls digitChar) 4]

/-- The `\(?\d{3}\)?[-.\s]?\d{3}[-.\s]?\d{4}` (line 177, US/Canada). -/
def phone_pattern2 : Re :=
  seqs [.opt (chr '('), .rep (.cls digitChar) 3, .opt (chr ')'), .opt (.cls phoneSep),
        .rep (.cls digitChar) 3, .opt (.cls phoneSep), .rep (.cls digitChar) 4]

/-- The `\d{4}[-.\s]?\d{3}[-.\s]?\d{3}` (line 178, alternative format). -/
def phone_pattern3 : Re :=
  seqs [.rep (.cls digitChar) 4, .opt (.cls phoneSep), .rep (.cls digitChar) 3,
        .opt (.cls phoneSep), .rep (.cls digitChar) 3]

/-- The `(?:@|twitter.com/)\w+` (line 188; the dots are unescaped). -/
def twitter_pattern : Re :=
  .seq (.alt (chr '@') (seqs [lit "twitter", dotAny, lit "com/"])) (plus (.cls wordChar))

/-- The `(?:facebook.com/|fb.com/)\w+` (line 189). -/
def facebook_pattern : Re :=
  .seq (.alt (seqs [lit "facebook", dotAny, lit "com/"]) (seqs [lit "fb", dotAny, lit "com/"]))
    (plus (.cls wordChar))

/-- The `(?:@|instagram.com/)\w+` (line 190). -/
def instagram_pattern : Re :=
  .seq (.alt (chr '@') (seqs [lit "instagram", dotAny, lit "com/"])) (plus (.cls wordChar))

/-- The `linkedin.com/(?:in|company)/[\w-]+` (line 191). -/
def linkedin_pattern : Re :=
  seqs [lit "linkedin", dotAny, lit "com/", .alt (lit "in") (lit "company"), chr '/',
        plus (.cls (fun c => wordChar c || c = '-'))]

/-- The `github.com/\w+` (line 192). -/
def github_pattern : Re :=
  seqs [lit "github", dotAny, lit "com/", plus (.cls wordChar)]

/-- The `\d{4}-\d{2}-\d{2}` (line 213, ISO date). -/
def date_pattern1 : Re :=
  seqs [.rep (.cls digitChar) 4, chr '-', .rep (.cls digitChar) 2, chr '-',
        .rep (.cls digitChar) 2]

/-- The `\d{2}/\d{2}/\d{4}` (line 214, US slash date). -/
def date_pattern2 : Re :=
  seqs [.rep (.cls digitChar) 2, chr '/', .rep (.cls digitChar) 2, chr '/',
        .rep (.cls digitChar) 4]

/-- The `\d{1,2}\s(?:Jan|Feb|Mar|Apr|May|Jun|Jul|Aug|Sep|Oct|Nov|Dec)[a-z]*\s\d{4}` (line 215). -/
def date_pattern3 : Re :=
  seqs [.repRange (.cls digitChar) 1 2, .cls spaceChar,
        alts [lit "Jan", lit "Feb", lit "Mar", lit "Apr", lit "May", lit "Jun",
              lit "Jul", lit "Aug", lit "Sep", lit "Oct", lit "Nov", lit "Dec"],
        .star (.cls (fun c => 'a' ≤ c && c ≤ 'z')), .cls spaceChar,
        .rep (.cls digitChar) 4]

/-- The `[A-Za-z0-9\s,]` (street-name part of the address pattern). -/
def addrChar (c : Char) : Bool := c.isAlpha || c.isDigit || spaceChar c || c = ','

/-- The address pattern of line 225, compiled with `re.IGNORECASE`:
`\d+\s+[A-Za-z0-9\s,]+(?:Street|St|Avenue|Ave|Road|Rd|Boulevard|Blvd|Lane|Ln|Drive|Dr)\s*,?\s*[A-Za-z\s]+,\s*[A-Z]{2}\s*\d{5}`.
Under `IGNORECASE` the keywords match case-insensitively and `[A-Z]` matches
any letter. -/
def address_pattern : Re :=
  seqs [plus (.cls digitChar), plus (.cls spaceChar), plus (.cls addrChar),
        alts [litCI "Street", litCI "St", litCI "Avenue", litCI "Ave", litCI "Road",
              litCI "Rd", litCI "Boulevard", litCI "Blvd", litCI "Lane", litCI "Ln",
              litCI "Drive", litCI "Dr"],
        .star (.cls spaceChar), .opt (chr ','), .star (.cls spaceChar),
        plus (.cls (fun c => c.isAlpha || spaceChar c)), chr ',', .star (.cls spaceChar),
        .rep (.cls Char.isAlpha) 2, .star (.cls spaceChar), .rep (.cls digitChar) 5]

/-- The `(?:USD|\$|€|£)\s*\d+(?:,\d{3})*(?:\.\d{2})?` (line 230). -/
def price_pattern : Re :=
  seqs [alts [lit "USD", chr '$', chr '€', chr '£'], .star (.cls spaceChar),
        plus (.cls digitChar), .star (seqs [chr ',', .rep (.cls digitChar) 3]),
        .opt (seqs [chr '.', .rep (.cls digitChar) 2])]

/-! ### The `extract_*` methods.
Python returns `list(set(matches))` whose iteration order is unspecified;
`List.dedup` models it, and every claim proved below is order independent. -/

/-- The `WebScraper.extract_emails` (lines 167-170). -/
def extract_emails (text : String) : List String :=
  (refindall email_pattern text).dedup

/-- The `WebScraper.extract_phone_numbers` (lines 172-183): the three patterns'
matches are concatenated, then deduplicated. -/
def extract_phone_numbers (text : String) : List String :=
  (refindall phone_pattern1 text ++ refindall phone_pattern2 text ++
    refindall phone_pattern3 text).dedup

/-- Does a lowercase character list start with the given needle? -/
def startsWithL : List Char → List Char → Bool
  | [], _ => true
  | _ :: _, [] => false
  | a :: as, b :: bs => a = b && startsWithL as bs

/-- Substring test on character lists. -/
def substrOf (needle : List Char) : List Char → Bool
  | [] => needle.isEmpty
  | c :: t => startsWithL needle (c :: t) || substrOf needle t

/-- The `any(platform in href.lower() for platform in social_patterns.keys())`
(line 205): the *platform names* are searched for in the lowercased href. -/
def socialHrefHit (href : String) : Bool :=
  ["twitter", "facebook", "instagram", "linkedin", "github"].any
    (fun p => substrOf p.toList href.toLower.toList)

/-- The `WebScraper.extract_social_media` (lines 185-208): pattern matches over the
page text for each platform (in dict insertion order), then every href that
contains a platform name, then deduplication. The anchor hrefs stand in for
`soup.find_all('a', href=True)`. -/
def extract_social_media (text : String) (hrefs : List String) : List String :=
  ((refindall twitter_pattern text ++ refindall facebook_pattern text ++
      refindall instagram_pattern text ++ refindall linkedin_pattern text ++
      refindall github_pattern text) ++ hrefs.filter socialHrefHit).dedup

/-- The `WebScraper.extract_dates` (lines 210-220). -/
def extract_dates (text : String) : List String :=
  (refindall date_pattern1 text ++ refindall date_pattern2 text ++
    refindall date_pattern3 text).dedup

/-- The `WebScraper.extract_addresses` (lines 222-226). -/
def extract_addresses (text : String) : List String :=
  (refindall address_pattern text).dedup

/-- The `WebScraper.extract_prices` (lines 228-231). -/
def extract_prices (text : String) : List String :=
  (refindall price_pattern text).dedup

/-! ### `urllib.parse` helpers.
`urlparse` extracts a scheme (letters/digits/`+`/`-`/`.` before the first `:`,
starting with a letter, lowercased) and a netloc (after `//`, up to the next
`/`, `?` or `#`). `urljoin` is modelled for the http(s) shapes the scraper
meets: absolute hrefs, protocol-relative, root-relative and plain relative
hrefs, without dot-segment normalization (no verified claim depends on the
relative cases). -/

/-- Characters allowed in a URL scheme after the leading letter. -/
def schemeChar (c : Char) : Bool := c.isAlpha || c.isDigit || c = '+' || c = '-' || c = '.'

/-- Split a character list at the first `:`, if any. -/
def splitOnColon : List Char → Option (List Char × List Char)
  | [] => none
  | c :: t =>
    if c = ':' then some ([], t)
    else (splitOnColon t).map (fun p => (c :: p.1, p.2))

/-- Is a non-empty character list a well-formed scheme? -/
def validSchemeChars : List Char → Bool
  | [] => false
  | c :: t => c.isAlpha && t.all schemeChar

/-- The `scheme` field of `urlparse(url)` (lowercased, `""` when absent). -/
def urlscheme (url : String) : String :=
  match splitOnColon url.toList with
  | none => ""
  | some (sch, _) =>
    if validSchemeChars sch then String.mk (sch.map Char.toLower) else ""

/-- The characters of `url` after its scheme prefix (the whole string when
there is no well-formed scheme). -/
def afterScheme (url : String) : List Char :=
  match splitOnColon url.toList with
  | none => url.toList
  | some (sch, rest) => if validSchemeChars sch then rest else url.toList

/-- The `netloc` field of `urlparse(url)` (`""` when the URL has no `//`). -/
def urlnetloc (url : String) : String :=
  match afterScheme url with
  | '/' :: '/' :: rest =>
    String.mk (rest.takeWhile (fun c => c ≠ '/' && c ≠ '?' && c ≠ '#'))
  | _ => ""

/-- The `WebScraper.is_valid_url` (lines 159-165):
`all([result.scheme in ['http', 'https'], result.netloc])`. `urlparse` does
not raise on ordinary strings, so the `except` branch is dead. -/
def is_valid_url (url : String) : Bool :=
  (urlscheme url = "http" || urlscheme url = "https") && urlnetloc url ≠ ""

/-- The path part of a URL: what follows the netloc, up to `?` or `#`. -/
def urlpath (url : String) : String :=
  match afterScheme url with
  | '/' :: '/' :: rest =>
    String.mk (((rest.dropWhile (fun c => c ≠ '/' && c ≠ '?' && c ≠ '#')).takeWhile
      (fun c => c ≠ '?' && c ≠ '#')))
  | other => String.mk (other.takeWhile (fun c => c ≠ '?' && c ≠ '#'))

/-- The path directory of a base URL: up to and including the last `/`
(Python replaces the last path segment when joining a relative href). -/
def pathDir (path : String) : String :=
  String.mk ((path.toList.reverse.dropWhile (fun c => c ≠ '/')).reverse)

/-- The `urllib.parse.urljoin(base, url)` for the shapes the scraper meets. -/
def urljoin (base url : String) : String :=
  if url = "" then base
  else if urlscheme url ≠ "" then url
  else
    match url.toList with
    | '/' :: '/' :: _ => urlscheme base ++ ":" ++ url
    | '/' :: _ => urlscheme base ++ "://" ++ urlnetloc base ++ url
    | _ =>
      urlscheme base ++ "://" ++ urlnetloc base ++
        (if pathDir (urlpath base) = "" then "/" else pathDir (urlpath base)) ++ url

/-! ### The crawl engine state -/

/-- A fetched page, as the scraper sees it after
`soup = BeautifulSoup(response.text); text = soup.get_text()`: the visible
text and the `href` values of its anchors (`soup.find_all('a', href=True)`). -/
structure Page where
  text : String
  hrefs : List String

/-- The network: `requests.get` either succeeds with a page or raises
(timeout, connection failure, non-2xx after `raise_for_status`), modelled as
`none`. -/
def Web := String → Option Page

/-- The immutable crawl limits set in `WebScraper.__init__`. -/
structure CrawlConfig where
  max_depth : Nat
  max_pages : Nat

/-- The seven fixed keys of `self.results`. -/
inductive Cat where
  | emails | phone_numbers | social_media | urls | dates | addresses | prices
deriving DecidableEq

/-- The `self.results`: a mapping from category to the accumulated list of values. -/
def Results := Cat → List String

/-- The result dictionary as initialized in `__init__` (lines 142-150). -/
def emptyResults : Results := fun _ => []

/-- The mutable state of a `WebScraper` instance: `self.visited_urls` (a set,
kept as a duplicate-free list) and `self.results`, plus two ghost fields:
`fetchLog` records each `requests.get` invocation in order and `errorLog`
records each URL whose processing hit `self.logger.error` (line 268). -/
structure ScraperState where
  visited : List String
  results : Results
  fetchLog : List String
  errorLog : List String

/-- A freshly constructed `WebScraper` (lines 137-150). -/
def initState : ScraperState :=
  { visited := [], results := emptyResults, fetchLog := [], errorLog := [] }

/-- Lines 235-241: add the URL to `self.visited_urls` and issue the fetch
(recorded in the ghost `fetchLog`). -/
def markVisited (st : ScraperState) (url : String) : ScraperState :=
  { st with visited := url :: st.visited, fetchLog := st.fetchLog ++ [url] }

/-- Line 267-268: the `except` branch logs the error and returns. -/
def logError (st : ScraperState) (url : String) : ScraperState :=
  { st with errorLog := st.errorLog ++ [url] }

/-- The per-page contribution of lines 247-252 to each category; the `urls`
key is not extended at this point. -/
def extractFor (page : Page) : Cat → List String
  | .emails => extract_emails page.text
  | .phone_numbers => extract_phone_numbers page.text
  | .social_media => extract_social_media page.text page.hrefs
  | .urls => []
  | .dates => extract_dates page.text
  | .addresses => extract_addresses page.text
  | .prices => extract_prices page.text

/-- Lines 247-256: extend the six extraction categories with this page's
matches, then replace every category (including `urls`) by
`list(set(...))`, modelled as `List.dedup`. -/
def mergePage (st : ScraperState) (page : Page) : ScraperState :=
  { st with results := fun c => (st.results c ++ extractFor page c).dedup }

/-- Line 264: `self.results['urls'].append(next_url)`. -/
def appendUrl (st : ScraperState) (next_url : String) : ScraperState :=
  { st with results := fun c => if c = Cat.urls then st.results c ++ [next_url] else st.results c }

/-- The loop of lines 260-265 over the page's anchors: resolve each href
against the page URL, and when the result is valid, record it in the `urls`
category and process it with `step` (the recursive `scrape_page` call at
depth + 1). Invalid resolutions are silently skipped. -/
def scrapeLinks (step : String → ScraperState → ScraperState) (base : String) :
    List String → ScraperState → ScraperState
  | [], st => st
  | href :: rest, st =>
    scrapeLinks step base rest
      (if is_valid_url (urljoin base href) = true then
        step (urljoin base href) (appendUrl st (urljoin base href))
      else st)

/-- One `scrape_page(url, depth)` call (lines 233-268), parameterized by the
frontier-expansion continuation `expand`:
guard (line 235), mark visited and fetch (238-242), on failure log and return
(267-268), on success merge the extraction results (247-256) and, when
`depth < max_depth` and `len(visited_urls) < max_pages` (259), expand the
page's links. -/
def scrapePageBody (cfg : CrawlConfig) (web : Web)
    (expand : String → List String → ScraperState → ScraperState)
    (url : String) (depth : Nat) (st : ScraperState) : ScraperState :=
  if ¬ is_valid_url url = true ∨ cfg.max_depth ≤ depth ∨ url ∈ st.visited then st
  else
    match web url with
    | none => logError (markVisited st url) url
    | some page =>
      if depth < cfg.max_depth ∧ (mergePage (markVisited st url) page).visited.length < cfg.max_pages then
        expand url page.hrefs (mergePage (markVisited st url) page)
      else mergePage (markVisited st url) page

/-- The `scrape_page` with explicit recursion fuel. Each recursive call increases
`depth` by 1 and decreases `fuel` by 1, so along every call starting from
`fuel = max_depth, depth = 0` the invariant `fuel = max_depth - depth` holds;
the expansion branch requires `depth < max_depth`, hence `fuel > 0` there and
the `fuel = 0` fallback (which skips expansion) is never taken. -/
def scrapePageF (cfg : CrawlConfig) (web : Web) :
    Nat → String → Nat → ScraperState → ScraperState
  | 0, url, depth, st => scrapePageBody cfg web (fun _ _ s => s) url depth st
  | fuel + 1, url, depth, st =>
    scrapePageBody cfg web
      (fun base hrefs s =>
        scrapeLinks (fun u s2 => scrapePageF cfg web fuel u (depth + 1) s2) base hrefs s)
      url depth st

/-- The `WebScraper.scrape_page(url)` at default depth 0. -/
def scrape_page (cfg : CrawlConfig) (web : Web) (url : String) (st : ScraperState) :
    ScraperState :=
  scrapePageF cfg web cfg.max_depth url 0 st

/-- The `WebScraper.scrape(start_url)` (lines 270-279) without the optional file
output: run `scrape_page(start_url)` on the instance state and return the
updated state (whose `results` field is the method's return value). -/
def scrape (cfg : CrawlConfig) (web : Web) (start_url : String) (st : ScraperState) :
    ScraperState :=
  scrape_page cfg web start_url st

/-! ### Small facts about the state operations -/

@[simp] theorem markVisited_visited (st : ScraperState) (url : String) :
    (markVisited st url).visited = url :: st.visited := rfl

@[simp] theorem markVisited_results (st : ScraperState) (url : String) :
    (markVisited st url).results = st.results := rfl

@[simp] theorem markVisited_fetchLog (st : ScraperState) (url : String) :
    (markVisited st url).fetchLog = st.fetchLog ++ [url] := rfl

@[simp] theorem markVisited_errorLog (st : ScraperState) (url : String) :
    (markVisited st url).errorLog = st.errorLog := rfl

@[simp] theorem logError_visited (st : ScraperState) (url : String) :
    (logError st url).visited = st.visited := rfl

@[simp] theorem logError_results (st : ScraperState) (url : String) :
    (logError st url).results = st.results := rfl

@[simp] theorem logError_fetchLog (st : ScraperState) (url : String) :
    (logError st url).fetchLog = st.fetchLog := rfl

@[simp] theorem logError_errorLog (st : ScraperState) (url : String) :
    (logError st url).errorLog = st.errorLog ++ [url] := rfl

@[simp] theorem mergePage_visited (st : ScraperState) (page : Page) :
    (mergePage st page).visited = st.visited := rfl

@[simp] theorem mergePage_fetchLog (st : ScraperState) (page : Page) :
    (mergePage st page).fetchLog = st.fetchLog := rfl

@[simp] theorem mergePage_errorLog (st : ScraperState) (page : Page) :
    (mergePage st page).errorLog = st.errorLog := rfl

@[simp] theorem mergePage_results (st : ScraperState) (page : Page) (c : Cat) :
    (mergePage st page).results c = (st.results c ++ extractFor page c).dedup := rfl

@[simp] theorem appendUrl_visited (st : ScraperState) (u : String) :
    (appendUrl st u).visited = st.visited := rfl

@[simp] theorem appendUrl_fetchLog (st : ScraperState) (u : String) :
    (appendUrl st u).fetchLog = st.fetchLog := rfl

@[simp] theorem appendUrl_errorLog (st : ScraperState) (u : String) :
    (appendUrl st u).errorLog = st.errorLog := rfl

@[simp] theorem appendUrl_results (st : ScraperState) (u : String) (c : Cat) :
    (appendUrl st u).results c = if c = Cat.urls then st.results c ++ [u] else st.results c := rfl

/-! ### Reduction lemmas for one `scrape_page` step -/

/-- Line 235: when the guard fires, `scrape_page` returns without touching
the state. -/
theorem scrapePageBody_skip (cfg : CrawlConfig) (web : Web) (expand) (url depth st)
    (h : ¬ is_valid_url url = true ∨ cfg.max_depth ≤ depth ∨ url ∈ st.visited) :
    scrapePageBody cfg web expand url depth st = st := by
  rw [scrapePageBody, if_pos h]

/-- Lines 238-242 and 267-268: guard passed, fetch raised. -/
theorem scrapePageBody_none (cfg : CrawlConfig) (web : Web) (expand) (url depth st)
    (hv : is_valid_url url = true) (hd : depth < cfg.max_depth) (hm : url ∉ st.visited)
    (hw : web url = none) :
    scrapePageBody cfg web expand url depth st = logError (markVisited st url) url := by
  rw [scrapePageBody, if_neg (by push_neg; exact ⟨hv, hd, hm⟩), hw]

/-- Guard passed, fetch succeeded, expansion guard of line 259 passed. -/
theorem scrapePageBody_expand (cfg : CrawlConfig) (web : Web) (expand) (url depth st page)
    (hv : is_valid_url url = true) (hd : depth < cfg.max_depth) (hm : url ∉ st.visited)
    (hw : web url = some page)
    (hc : (mergePage (markVisited st url) page).visited.length < cfg.max_pages) :
    scrapePageBody cfg web expand url depth st =
      expand url page.hrefs (mergePage (markVisited st url) page) := by
  rw [scrapePageBody, if_neg (by push_neg; exact ⟨hv, hd, hm⟩), hw]
  exact if_pos ⟨hd, hc⟩

/-- Guard passed, fetch succeeded, expansion guard failed: the page's
extraction results are merged but no link is followed or recorded. -/
theorem scrapePageBody_noExpand (cfg : CrawlConfig) (web : Web) (expand) (url depth st page)
    (hv : is_valid_url url = true) (hd : depth < cfg.max_depth) (hm : url ∉ st.visited)
    (hw : web url = some page)
    (hc : ¬ (mergePage (markVisited st url) page).visited.length < cfg.max_pages) :
    scrapePageBody cfg web expand url depth st = mergePage (markVisited st url) page := by
  rw [scrapePageBody, if_neg (by push_neg; exact ⟨hv, hd, hm⟩), hw]
  exact if_neg (fun hand => hc hand.2)

theorem scrapePageF_zero (cfg : CrawlConfig) (web : Web) (url depth st) :
    scrapePageF cfg web 0 url depth st = scrapePageBody cfg web (fun _ _ s => s) url depth st :=
  rfl

theorem scrapePageF_succ (cfg : CrawlConfig) (web : Web) (fuel url depth st) :
    scrapePageF cfg web (fuel + 1) url depth st =
      scrapePageBody cfg web
        (fun base hrefs s =>
          scrapeLinks (fun u s2 => scrapePageF cfg web fuel u (depth + 1) s2) base hrefs s)
        url depth st :=
  rfl

/-! ### Preservation of invariants along the crawl -/

/-- A property preserved by the per-link processing is preserved by the whole
link loop of lines 260-265. -/
theorem scrapeLinks_pres (P : ScraperState → Prop)
    (step : String → ScraperState → ScraperState) (base : String)
    (hstep : ∀ u s, P s → P (step u s))
    (happ : ∀ s u, P s → P (appendUrl s u)) :
    ∀ hrefs st, P st → P (scrapeLinks step base hrefs st) := by
  intro hrefs
  induction hrefs with
  | nil => intro st h; exact h
  | cons href rest ih =>
    intro st h
    rw [scrapeLinks]
    apply ih
    by_cases hv : is_valid_url (urljoin base href) = true
    · rw [if_pos hv]; exact hstep _ _ (happ _ _ h)
    · rw [if_neg hv]; exact h

/-- A property preserved by each primitive state operation is preserved by
`scrape_page` (and hence by a whole crawl). The `markVisited` step may assume
the URL is fresh, since the guard of line 235 ensures it. -/
theorem scrapePageF_pres (P : ScraperState → Prop) (cfg : CrawlConfig) (web : Web)
    (hmark : ∀ s u, u ∉ s.visited → P s → P (markVisited s u))
    (herr : ∀ s u, P s → P (logError s u))
    (hmerge : ∀ s page, P s → P (mergePage s page))
    (happ : ∀ s u, P s → P (appendUrl s u)) :
    ∀ fuel url depth st, P st → P (scrapePageF cfg web fuel url depth st) := by
  intro fuel
  induction fuel with
  | zero =>
    intro url depth st h
    rw [scrapePageF_zero]
    by_cases hg : ¬ is_valid_url url = true ∨ cfg.max_depth ≤ depth ∨ url ∈ st.visited
    · rw [scrapePageBody_skip _ _ _ _ _ _ hg]; exact h
    · push_neg at hg
      obtain ⟨hv, hd, hm⟩ := hg
      cases hw : web url with
      | none =>
        rw [scrapePageBody_none _ _ _ _ _ _ hv hd hm hw]
        exact herr _ _ (hmark _ _ hm h)
      | some page =>
        by_cases hc : (mergePage (markVisited st url) page).visited.length < cfg.max_pages
        · rw [scrapePageBody_expand _ _ _ _ _ _ _ hv hd hm hw hc]
          exact hmerge _ _ (hmark _ _ hm h)
        · rw [scrapePageBody_noExpand _ _ _ _ _ _ _ hv hd hm hw hc]
          exact hmerge _ _ (hmark _ _ hm h)
  | succ f ih =>
    intro url depth st h
    rw [scrapePageF_succ]
    by_cases hg : ¬ is_valid_url url = true ∨ cfg.max_depth ≤ depth ∨ url ∈ st.visited
    · rw [scrapePageBody_skip _ _ _ _ _ _ hg]; exact h
    · push_neg at hg
      obtain ⟨hv, hd, hm⟩ := hg
      cases hw : web url with
      | none =>
        rw [scrapePageBody_none _ _ _ _ _ _ hv hd hm hw]
        exact herr _ _ (hmark _ _ hm h)
      | some page =>
        by_cases hc : (mergePage (markVisited st url) page).visited.length < cfg.max_pages
        · rw [scrapePageBody_expand _ _ _ _ _ _ _ hv hd hm hw hc]
          exact scrapeLinks_pres P _ url (fun u s2 hs2 => ih u (depth + 1) s2 hs2) happ
            page.hrefs _ (hmerge _ _ (hmark _ _ hm h))
        · rw [scrapePageBody_noExpand _ _ _ _ _ _ _ hv hd hm hw hc]
          exact hmerge _ _ (hmark _ _ hm h)

/-- Membership in any result category only grows along the crawl: extends and
`list(set(...))` dedups never drop a value, they only remove repetitions. -/
theorem results_mem_mono (cfg : CrawlConfig) (web : Web) (c : Cat) (v : String) :
    ∀ fuel url depth st, v ∈ st.results c →
      v ∈ (scrapePageF cfg web fuel url depth st).results c :=
  scrapePageF_pres (fun s => v ∈ s.results c) cfg web
    (fun _ _ _ h => h) (fun _ _ h => h)
    (fun s page h => by
      simp only [mergePage_results, List.mem_dedup]
      exact List.mem_append_left _ h)
    (fun s u h => by
      simp only [appendUrl_results]
      by_cases hc : c = Cat.urls
      · rw [if_pos hc]; exact List.mem_append_left _ h
      · rw [if_neg hc]; exact h)

/-- The `self.visited_urls` only grows along the crawl. -/
theorem visited_mem_mono (cfg : CrawlConfig) (web : Web) (x : String) :
    ∀ fuel url depth st, x ∈ st.visited →
      x ∈ (scrapePageF cfg web fuel url depth st).visited :=
  scrapePageF_pres (fun s => x ∈ s.visited) cfg web
    (fun _ u _ h => List.mem_cons_of_mem u h) (fun _ _ h => h) (fun _ _ h => h)
    (fun _ _ h => h)

/-! ### Concrete crawl fixtures used by the scenario theorems -/

/-- A valid seed URL. -/
def seedU : String := "http://s.x/"

/-- Two valid link targets. -/
def linkA : String := "http://a.x/"

/-- Resolved second link. -/
def linkB : String := "http://b.x/"

/-- A site of three pages: the seed links to `linkA` and `linkB`, which have
no links; all other URLs fail to fetch. -/
def webTwoLinks : Web := fun u =>
  if u = seedU then some ⟨"", [linkA, linkB]⟩
  else if u = linkA then some ⟨"", []⟩
  else if u = linkB then some ⟨"", []⟩
  else none

/-- A site whose seed page carries the same valid link twice. -/
def webDupLink : Web := fun u =>
  if u = seedU then some ⟨"", [linkA, linkA]⟩ else none

/-- A site where every fetch fails (e.g. every request times out). -/
def webNone : Web := fun _ => none

/-- A site where the seed page links to `linkA` (whose fetch fails) and then
`linkB` (which succeeds). -/
def webFailA : Web := fun u =>
  if u = seedU then some ⟨"", [linkA, linkB]⟩
  else if u = linkB then some ⟨"", []⟩
  else none

/-- A seed page linking to 10 distinct valid pages. -/
def webTen : Web := fun u =>
  if u = seedU then
    some ⟨"", ["http://l0.x/", "http://l1.x/", "http://l2.x/", "http://l3.x/",
               "http://l4.x/", "http://l5.x/", "http://l6.x/", "http://l7.x/",
               "http://l8.x/", "http://l9.x/"]⟩
  else none

/-- A seed page whose text is the contact scenario of the specification. -/
def webContact : Web := fun u =>
  if u = seedU then some ⟨"Contact: a@b.com or call (555) 123-4567", []⟩ else none

/-! ### C8 — depth guard -/

/-- C8: for every frontier entry `(url, depth)` with `depth ≥ max_depth`, no
fetch is performed: the guard of line 235 returns without touching the state
at all (no visited-set change, no fetch, no result change). -/
theorem no_fetch_at_max_depth (cfg : CrawlConfig) (web : Web) (fuel : Nat) (url : String)
    (depth : Nat) (st : ScraperState) (h : cfg.max_depth ≤ depth) :
    scrapePageF cfg web fuel url depth st = st := by
  cases fuel with
  | zero => rw [scrapePageF_zero]; exact scrapePageBody_skip _ _ _ _ _ _ (Or.inr (Or.inl h))
  | succ f => rw [scrapePageF_succ]; exact scrapePageBody_skip _ _ _ _ _ _ (Or.inr (Or.inl h))

/-- Witness for C8 at a concrete frontier entry of depth 2 with `max_depth = 2`. -/
theorem no_fetch_at_max_depth_witness :
    scrapePageF ⟨2, 100⟩ webNone 5 linkA 2 initState = initState :=
  no_fetch_at_max_depth ⟨2, 100⟩ webNone 5 linkA 2 initState (by decide)

/-! ### C6 — invalid seed URL -/

/-- C6: `ftp://x.com` fails `is_valid_url`, and a crawl from any URL failing
the validity check returns the state unchanged: with a fresh scraper this is
the all-empty result set with zero fetches — a valid outcome, not an error. -/
theorem invalid_seed_empty_crawl :
    is_valid_url "ftp://x.com" = false
    ∧ (∀ cfg web fuel url depth st, is_valid_url url = false →
        scrapePageF cfg web fuel url depth st = st)
    ∧ (∀ cfg web st, scrape cfg web "ftp://x.com" st = st)
    ∧ (∀ c, (scrape ⟨2, 100⟩ webTwoLinks "ftp://x.com" initState).results c = [])
    ∧ (scrape ⟨2, 100⟩ webTwoLinks "ftp://x.com" initState).fetchLog = [] := by
  have hftp : is_valid_url "ftp://x.com" = false := by decide
  have hgen : ∀ cfg web fuel url depth st, is_valid_url url = false →
      scrapePageF cfg web fuel url depth st = st := by
    intro cfg web fuel url depth st hu
    cases fuel with
    | zero => rw [scrapePageF_zero]; exact scrapePageBody_skip _ _ _ _ _ _ (Or.inl (by simp [hu]))
    | succ f => rw [scrapePageF_succ]; exact scrapePageBody_skip _ _ _ _ _ _ (Or.inl (by simp [hu]))
  have hcr : ∀ cfg web st, scrape cfg web "ftp://x.com" st = st := fun cfg web st =>
    hgen cfg web cfg.max_depth "ftp://x.com" 0 st hftp
  exact ⟨hftp, hgen, hcr, fun c => by rw [hcr]; rfl, by rw [hcr]; rfl⟩

/-- Witness for C6: the invalid-scheme seed at concrete inputs. -/
theorem invalid_seed_empty_crawl_witness :
    scrapePageF ⟨1, 1⟩ webNone 0 "ftp://x.com" 0 initState = initState :=
  invalid_seed_empty_crawl.2.1 ⟨1, 1⟩ webNone 0 "ftp://x.com" 0 initState (by decide)

/-! ### C3 — `max_depth = 0` -/

/-- Counterexample to C3: with `max_depth = 0` and a perfectly valid,
fetchable seed, the guard `depth >= self.max_depth` (line 235) fires at the
seed itself (`0 >= 0`), so the seed page is NOT fetched — the claim that
"the seed page is fetched" fails; zero fetches occur. -/
theorem max_depth_zero_seed_not_fetched_cex :
    is_valid_url seedU = true
    ∧ (webTwoLinks seedU).isSome = true
    ∧ seedU ∉ (scrape ⟨0, 100⟩ webTwoLinks seedU initState).fetchLog
    ∧ (scrape ⟨0, 100⟩ webTwoLinks seedU initState).fetchLog = [] := by decide

/-- C3 amended: with `max_depth = 0` the crawl fetches nothing and leaves the
scraper state (in particular an all-empty fresh result set) unchanged. The
behavior the claim describes — seed fetched, its links recorded in `urls`,
no further fetches — is what `max_depth = 1` produces. -/
theorem max_depth_zero_scrapes_nothing (cfg : CrawlConfig) (web : Web) (url : String)
    (st : ScraperState) (h : cfg.max_depth = 0) :
    scrape cfg web url st = st := by
  unfold scrape scrape_page
  rw [h, scrapePageF_zero]
  exact scrapePageBody_skip _ _ _ _ _ _ (Or.inr (Or.inl (by simp [h])))

/-- Witness for the amended C3 at a concrete configuration. -/
theorem max_depth_zero_scrapes_nothing_witness :
    scrape ⟨0, 100⟩ webTwoLinks seedU initState = initState :=
  max_depth_zero_scrapes_nothing ⟨0, 100⟩ webTwoLinks seedU initState rfl

/-! ### C1 — page budget -/

/-- Counterexample to C1: with `max_depth = 2, max_pages = 2` on a seed that
links to two pages, the visited set ends with 3 entries. The page-budget
check of line 259 only gates *entering* a page's link loop; the recursive
call for a sibling link re-checks validity, depth and the visited set (line
235) but not the budget, so `linkB` is still fetched after the budget is
full. -/
theorem visited_exceeds_max_pages_cex :
    (scrape ⟨2, 2⟩ webTwoLinks seedU initState).visited.length = 3
    ∧ (⟨2, 2⟩ : CrawlConfig).max_pages < (scrape ⟨2, 2⟩ webTwoLinks seedU initState).visited.length := by
  decide

/-- C1 amended: once `|visited_urls| ≥ max_pages`, a frontier entry causes at
most one further fetch (the entry itself) and never expands its links — the
budget stops all frontier growth, but sibling links of a page whose loop
already started may still each be fetched once, so `|visited_urls|` can end
above `max_pages`. -/
theorem budget_blocks_link_expansion (cfg : CrawlConfig) (web : Web) (fuel : Nat)
    (url : String) (depth : Nat) (st : ScraperState)
    (h : cfg.max_pages ≤ st.visited.length) :
    (scrapePageF cfg web fuel url depth st).fetchLog.length ≤ st.fetchLog.length + 1 := by
  have hbody : ∀ expand,
      (scrapePageBody cfg web expand url depth st).fetchLog.length ≤ st.fetchLog.length + 1 := by
    intro expand
    by_cases hg : ¬ is_valid_url url = true ∨ cfg.max_depth ≤ depth ∨ url ∈ st.visited
    · rw [scrapePageBody_skip _ _ _ _ _ _ hg]; exact Nat.le_succ _
    · push_neg at hg
      obtain ⟨hv, hd, hm⟩ := hg
      cases hw : web url with
      | none =>
        rw [scrapePageBody_none _ _ _ _ _ _ hv hd hm hw]
        simp
      | some page =>
        have hc : ¬ (mergePage (markVisited st url) page).visited.length < cfg.max_pages := by
          simp only [mergePage_visited, markVisited_visited, List.length_cons]
          omega
        rw [scrapePageBody_noExpand _ _ _ _ _ _ _ hv hd hm hw hc]
        simp
  cases fuel with
  | zero => rw [scrapePageF_zero]; exact hbody _
  | succ f => rw [scrapePageF_succ]; exact hbody _

/-- Witness for the amended C1: budget already full before processing `linkB`. -/
theorem budget_blocks_link_expansion_witness :
    (scrapePageF ⟨5, 1⟩ webTwoLinks 5 linkB 1 (markVisited initState seedU)).fetchLog.length
      ≤ (markVisited initState seedU).fetchLog.length + 1 :=
  budget_blocks_link_expansion ⟨5, 1⟩ webTwoLinks 5 linkB 1 (markVisited initState seedU)
    (by decide)

/-! ### C7 — fetch failures are non-fatal -/

/-- C7: when the guard passes but the fetch raises (timeout, connection
failure, non-2xx via `raise_for_status`), the `except` branch of lines
267-268 leaves the results untouched, logs the failure, and returns — the
only state changes are the visited mark and the logged fetch/error, so no
exception escapes the page and the caller's link loop continues with the
next href. Concretely: a seed whose fetch times out yields an all-empty
result set with the failure logged, and in `webFailA` the failing `linkA`
does not stop `linkB` from being fetched afterwards. -/
theorem fetch_failure_nonfatal :
    (∀ cfg web fuel url depth st,
       is_valid_url url = true → depth < cfg.max_depth → url ∉ st.visited →
       web url = none →
       scrapePageF cfg web fuel url depth st =
         { st with visited := url :: st.visited, fetchLog := st.fetchLog ++ [url],
                   errorLog := st.errorLog ++ [url] })
    ∧ (∀ c, (scrape ⟨2, 100⟩ webNone seedU initState).results c = [])
    ∧ (scrape ⟨2, 100⟩ webNone seedU initState).errorLog = [seedU]
    ∧ (scrape ⟨2, 100⟩ webNone seedU initState).fetchLog = [seedU]
    ∧ (scrape ⟨2, 100⟩ webFailA seedU initState).fetchLog = [seedU, linkA, linkB]
    ∧ (scrape ⟨2, 100⟩ webFailA seedU initState).errorLog = [linkA] := by
  refine ⟨?_, fun c => by cases c <;> decide, by decide, by decide, by decide, by decide⟩
  intro cfg web fuel url depth st hv hd hm hw
  cases fuel with
  | zero => rw [scrapePageF_zero, scrapePageBody_none _ _ _ _ _ _ hv hd hm hw]; rfl
  | succ f => rw [scrapePageF_succ, scrapePageBody_none _ _ _ _ _ _ hv hd hm hw]; rfl

/-- Witness for C7: the failing seed fetch at concrete inputs. -/
theorem fetch_failure_nonfatal_witness :
    scrapePageF ⟨2, 100⟩ webNone 2 seedU 0 initState =
      { initState with visited := [seedU], fetchLog := [seedU], errorLog := [seedU] } :=
  fetch_failure_nonfatal.1 ⟨2, 100⟩ webNone 2 seedU 0 initState (by decide) (by decide)
    (by decide) rfl

/-! ### C4 — each URL fetched at most once -/

/-- C4: on a crawl from a fresh scraper, no URL is ever passed to
`requests.get` twice (the fetch log has no duplicates), and the visited set
has exactly one entry per fetch invocation: line 235 skips URLs already in
`self.visited_urls` and line 238 adds the URL in the same step that issues
the fetch. -/
theorem no_url_fetched_twice (cfg : CrawlConfig) (web : Web) (url : String) :
    (scrape cfg web url initState).fetchLog.Nodup
    ∧ (scrape cfg web url initState).visited.length
        = (scrape cfg web url initState).fetchLog.length := by
  have h := scrapePageF_pres (fun s => s.visited = s.fetchLog.reverse ∧ s.fetchLog.Nodup)
    cfg web
    (fun s u hu hp => by
      constructor
      · simp only [markVisited_visited, markVisited_fetchLog, List.reverse_append,
          List.reverse_cons, List.reverse_nil, List.nil_append, List.singleton_append, hp.1]
      · have hnot : u ∉ s.fetchLog := fun hf => hu (by rw [hp.1]; exact List.mem_reverse.mpr hf)
        simp only [markVisited_fetchLog, List.nodup_append, List.nodup_singleton,
          List.disjoint_singleton, true_and]
        exact ⟨hp.2, hnot⟩)
    (fun s u hp => hp) (fun s p hp => hp) (fun s u hp => hp)
    cfg.max_depth url 0 initState ⟨rfl, List.nodup_nil⟩
  refine ⟨h.2, ?_⟩
  show (scrapePageF cfg web cfg.max_depth url 0 initState).visited.length
      = (scrapePageF cfg web cfg.max_depth url 0 initState).fetchLog.length
  rw [h.1, List.length_reverse]

/-! ### C10 — instance state persists across `scrape` calls -/

/-- C10: the visited set and results live on `self`, so a second call to
`scrape` on the same instance (1) keeps every URL visited by the first call,
(2) never refetches a URL the first call visited: the fetch log after the
second call is the first call's fetch log followed by new entries, and every
one of those new entries is a URL that was NOT in the first call's visited
set, and (3) returns results that still contain every value the first call
accumulated. -/
theorem scraper_state_persists (cfg : CrawlConfig) (web : Web) (u1 u2 : String) :
    (∀ x, x ∈ (scrape cfg web u1 initState).visited →
       x ∈ (scrape cfg web u2 (scrape cfg web u1 initState)).visited)
    ∧ (∃ rest, (scrape cfg web u2 (scrape cfg web u1 initState)).fetchLog
          = (scrape cfg web u1 initState).fetchLog ++ rest
        ∧ ∀ u, u ∈ rest → u ∉ (scrape cfg web u1 initState).visited)
    ∧ (∀ c v, v ∈ (scrape cfg web u1 initState).results c →
        v ∈ (scrape cfg web u2 (scrape cfg web u1 initState)).results c) := by
  have h := scrapePageF_pres
    (fun s => (∀ x, x ∈ (scrape cfg web u1 initState).visited → x ∈ s.visited)
      ∧ ∃ rest, s.fetchLog = (scrape cfg web u1 initState).fetchLog ++ rest
          ∧ ∀ u, u ∈ rest → u ∉ (scrape cfg web u1 initState).visited) cfg web
    (fun s u hu hp => by
      obtain ⟨hvis, rest, hr, hn⟩ := hp
      refine ⟨fun x hx => List.mem_cons_of_mem _ (hvis x hx), rest ++ [u], ?_, ?_⟩
      · rw [markVisited_fetchLog, hr, List.append_assoc]
      · intro w hw
        rcases List.mem_append.mp hw with hw1 | hw2
        · exact hn w hw1
        · have hwu : w = u := by simpa using hw2
          subst hwu
          exact fun hmem => hu (hvis w hmem))
    (fun s u hp => hp) (fun s p hp => hp) (fun s u hp => hp)
    cfg.max_depth u2 0 (scrape cfg web u1 initState)
    ⟨fun x hx => hx, [], by rw [List.append_nil], fun u hu2 => absurd hu2 (List.not_mem_nil u)⟩
  exact ⟨h.1, h.2, fun c v hv =>
    results_mem_mono cfg web c v cfg.max_depth u2 0 (scrape cfg web u1 initState) hv⟩

/-- Witness for C10: the seed of the first crawl is still visited after a
second crawl from a fresh URL, and a value recorded by the first crawl is
still in the returned results. -/
theorem scraper_state_persists_witness :
    seedU ∈ (scrape ⟨2, 100⟩ webTwoLinks "http://q.x/" (scrape ⟨2, 100⟩ webTwoLinks seedU initState)).visited
    ∧ linkA ∈ (scrape ⟨2, 100⟩ webTwoLinks "http://q.x/" (scrape ⟨2, 100⟩ webTwoLinks seedU initState)).results Cat.urls :=
  ⟨(scraper_state_persists ⟨2, 100⟩ webTwoLinks seedU "http://q.x/").1 seedU (by decide),
   (scraper_state_persists ⟨2, 100⟩ webTwoLinks seedU "http://q.x/").2.2 Cat.urls linkA (by decide)⟩

/-! ### C5 — deduplication of the result categories -/

/-- Counterexample to C5: the final `urls` category need not be
duplicate-free. With `max_depth = 1` the seed's links are recorded by line
264 but the children are never fetched (depth guard), so the dedup of lines
254-256 never runs again after the appends: a page carrying the same link
twice leaves two copies of it in the final `urls` list. -/
theorem urls_category_duplicate_cex :
    (scrape ⟨1, 100⟩ webDupLink seedU initState).results Cat.urls = [linkA, linkA]
    ∧ ¬ ((scrape ⟨1, 100⟩ webDupLink seedU initState).results Cat.urls).Nodup := by
  decide

/-- C5 amended: after each successful fetch every category is replaced by
`list(set(...))`, so (1) the six extraction categories are duplicate-free in
the final result set of any crawl, and (2) merging the same page's extracted
values twice leaves every category's membership unchanged (idempotent
union); only `urls` entries appended by the link loop after the last
successful fetch can remain duplicated. -/
theorem categories_dedup_amended :
    (∀ cfg web url c, c ≠ Cat.urls → ((scrape cfg web url initState).results c).Nodup)
    ∧ (∀ st page c v,
        v ∈ (mergePage (mergePage st page) page).results c
          ↔ v ∈ (mergePage st page).results c) := by
  constructor
  · intro cfg web url c hc
    have h := scrapePageF_pres (fun s => ∀ c2, c2 ≠ Cat.urls → (s.results c2).Nodup) cfg web
      (fun s u _ hp => hp) (fun s u hp => hp)
      (fun s p hp c2 _ => by
        simp only [mergePage_results]
        exact List.nodup_dedup _)
      (fun s u hp c2 hc2 => by
        simp only [appendUrl_results, if_neg hc2]
        exact hp c2 hc2)
      cfg.max_depth url 0 initState (fun c2 _ => List.nodup_nil)
    exact h c hc
  · intro st page c v
    simp only [mergePage_results, List.mem_dedup, List.mem_append]
    tauto

/-- Witness for the amended C5 on a concrete crawl and category. -/
theorem categories_dedup_amended_witness :
    ((scrape ⟨1, 100⟩ webDupLink seedU initState).results Cat.emails).Nodup :=
  categories_dedup_amended.1 ⟨1, 100⟩ webDupLink seedU Cat.emails (by decide)

/-! ### C2 — discovered links are recorded in `urls` -/

/-- Every href in the link loop whose resolution is valid ends up in the
final `urls` category: line 264 appends it before the recursive call, and
membership survives the recursive call and the remaining iterations. -/
theorem scrapeLinks_records_links (cfg : CrawlConfig) (web : Web) (fuel depth : Nat)
    (base : String) :
    ∀ hrefs st href, href ∈ hrefs → is_valid_url (urljoin base href) = true →
      urljoin base href ∈
        (scrapeLinks (fun u s => scrapePageF cfg web fuel u (depth + 1) s) base hrefs
          st).results Cat.urls := by
  intro hrefs
  induction hrefs with
  | nil => intro st href h; exact absurd h (List.not_mem_nil _)
  | cons hd2 tl ih =>
    intro st href hmem hv
    rw [scrapeLinks]
    rcases List.mem_cons.mp hmem with heq | htl
    · subst heq
      apply scrapeLinks_pres (fun s => urljoin base href ∈ s.results Cat.urls) _ base
        (fun u s hs => results_mem_mono cfg web Cat.urls _ fuel u (depth + 1) s hs)
        (fun s u hs => by
          simp only [appendUrl_results, if_pos rfl]
          exact List.mem_append_left _ hs)
        tl _
      rw [if_pos hv]
      apply results_mem_mono cfg web Cat.urls _ fuel _ (depth + 1)
      simp only [appendUrl_results, if_pos rfl]
      exact List.mem_append_right _ (List.mem_singleton_self _)
    · exact ih _ href htl hv

/-- C2: whenever a fetched page's link loop runs (guard of line 235 passed,
fetch succeeded, expansion condition of line 259 held), every href that
resolves to a valid absolute URL is recorded in the `urls` category of the
final results — including hrefs whose pages are never fetched (already
visited, depth- or budget-blocked, or failing). And the `max_pages = 1`
scenario: a seed linking to 10 pages produces exactly one fetch, and the
`urls` category holds at most 10 entries (here zero: with the budget already
exhausted by the seed, the loop never runs, which still satisfies the
claim's "up to 10"). -/
theorem discovered_links_recorded :
    (∀ cfg web fuel url depth st page,
       is_valid_url url = true → depth < cfg.max_depth → url ∉ st.visited →
       web url = some page →
       st.visited.length + 1 < cfg.max_pages →
       ∀ href, href ∈ page.hrefs → is_valid_url (urljoin url href) = true →
         urljoin url href ∈ (scrapePageF cfg web (fuel + 1) url depth st).results Cat.urls)
    ∧ (scrape ⟨2, 1⟩ webTen seedU initState).fetchLog = [seedU]
    ∧ ((scrape ⟨2, 1⟩ webTen seedU initState).results Cat.urls).length ≤ 10 := by
  refine ⟨?_, by decide, by decide⟩
  intro cfg web fuel url depth st page hv hd hm hw hp href hhref hvnext
  have hc : (mergePage (markVisited st url) page).visited.length < cfg.max_pages := by
    simpa using hp
  rw [scrapePageF_succ, scrapePageBody_expand _ _ _ _ _ _ _ hv hd hm hw hc]
  exact scrapeLinks_records_links cfg web fuel depth url page.hrefs _ href hhref hvnext

/-- Witness for C2: on `webTwoLinks`, the seed's second link is recorded in
`urls` even though the instantiation's interesting case (a link never
fetched) is exercised by the crawl. -/
theorem discovered_links_recorded_witness :
    urljoin seedU linkB ∈ (scrapePageF ⟨2, 100⟩ webTwoLinks 2 seedU 0 initState).results Cat.urls :=
  discovered_links_recorded.1 ⟨2, 100⟩ webTwoLinks 1 seedU 0 initState ⟨"", [linkA, linkB]⟩
    (by decide) (by decide) (by decide) rfl (by decide) linkB (by decide) (by decide)

/-! ### C9 — the contact scenario -/

/-- C9: on the page text `"Contact: a@b.com or call (555) 123-4567"`,
`extract_emails` yields `"a@b.com"` and `extract_phone_numbers` yields the
exact match `"(555) 123-4567"` (via the US/Canada pattern); through a crawl
that fetches such a page, both values land in the `emails` and
`phone_numbers` categories of the results. -/
theorem contact_scenario_extraction :
    "a@b.com" ∈ extract_emails "Contact: a@b.com or call (555) 123-4567"
    ∧ "(555) 123-4567" ∈ extract_phone_numbers "Contact: a@b.com or call (555) 123-4567"
    ∧ "a@b.com" ∈ (scrape ⟨2, 100⟩ webContact seedU initState).results Cat.emails
    ∧ "(555) 123-4567" ∈ (scrape ⟨2, 100⟩ webContact seedU initState).results Cat.phone_numbers := by
  refine ⟨by decide, by decide, by decide, by decide⟩
